import Mathlib

/-!
Verification of the CampusCore grade-aggregation and record-access core.

This file gives a shallow embedding of the grade controller, the student
self-service controllers, the deletion guard, and the pagination logic of
the CampusCore API, and proves or refutes the frozen specification claims
about them.  JavaScript numbers are modelled as exact rationals wherever
the stored data is validated (scores live in [0,100]); the special IEEE
values that matter for the validation gate (NaN and the infinities) are
modelled explicitly by the `JsNum` type together with the JavaScript
comparison semantics on them.
-/

set_option linter.unusedVariables false

/-- Model of JavaScript `String.prototype.toLowerCase` (ASCII-faithful). -/
def jsToLower (s : String) : String := ⟨s.data.map Char.toLower⟩

/-- Model of JavaScript `String.prototype.trim`: strip leading and
trailing whitespace. -/
def jsTrim (s : String) : String :=
  ⟨((s.data.dropWhile Char.isWhitespace).reverse.dropWhile Char.isWhitespace).reverse⟩

/-- A JavaScript number as far as the validation gate can observe it:
either a finite value (modelled exactly as a rational) or one of the
special values NaN, Infinity, -Infinity. -/
inductive JsNum where
  | nan
  | posInf
  | negInf
  | fin (q : ℚ)
deriving DecidableEq, Repr

/-- JavaScript `<` on numbers: any comparison involving NaN is false,
-Infinity is below every non-NaN value, Infinity above. -/
def JsNum.ltB : JsNum → JsNum → Bool
  | .nan, _ => false
  | _, .nan => false
  | .negInf, .negInf => false
  | .negInf, _ => true
  | .posInf, _ => false
  | .fin _, .posInf => true
  | .fin _, .negInf => false
  | .fin a, .fin b => decide (a < b)

/-- JavaScript `a > b`, which evaluates as `b < a`. -/
def JsNum.gtB (a b : JsNum) : Bool := JsNum.ltB b a

/-- A JavaScript request-body value, restricted to the shapes the grade
validation gate distinguishes: `undefined`, `null`, numbers and strings. -/
inductive JsVal where
  | undef
  | nullv
  | num (n : JsNum)
  | str (s : String)
deriving DecidableEq, Repr

/-- JavaScript truthiness of a `JsVal`: `undefined`, `null`, `0`, `NaN`
and the empty string are falsy. -/
def JsVal.truthy : JsVal → Bool
  | .undef => false
  | .nullv => false
  | .num .nan => false
  | .num (.fin q) => decide (q ≠ 0)
  | .num _ => true
  | .str s => decide (s ≠ "")

/-- One stored grade record: `{subject, score}` with the score already
validated, hence modelled as a rational. -/
structure Grade where
  subject : String
  score : ℚ
deriving DecidableEq, Repr

/-- The case-insensitive subject match used by the controllers:
`grade.subject.toLowerCase() === key.toLowerCase()`. -/
def subjMatches (g : Grade) (key : String) : Bool :=
  decide (jsToLower g.subject = jsToLower key)

/-- Outcome tag of the upsert: the controller's `action` field. -/
inductive GradeAction where
  | added
  | updated
deriving DecidableEq, Repr

/-- Core of `addOrUpdateGrade` (gradeController.ts lines 58-71): find the
first record whose subject matches the trimmed subject case-insensitively
and overwrite its score in place, keeping the stored subject string and
the position; otherwise append a new record with the trimmed subject. -/
def upsertGrades (grades : List Grade) (subj : String) (score : ℚ) : List Grade × GradeAction :=
  match grades with
  | [] => ([⟨subj, score⟩], .added)
  | g :: gs =>
    if subjMatches g subj then (⟨g.subject, score⟩ :: gs, .updated)
    else
      let r := upsertGrades gs subj score
      (g :: r.1, r.2)

/-- Core of `removeGrade` (gradeController.ts lines 176-191): find the
first case-insensitive match and splice it out; `none` models the 404
"Grade not found" branch.  Returns the removed record and the rest. -/
def removeGrades (grades : List Grade) (subj : String) : Option (Grade × List Grade) :=
  match grades with
  | [] => none
  | g :: gs =>
    if subjMatches g subj then some (g, gs)
    else (removeGrades gs subj).map (fun r => (r.1, g :: r.2))

/-- JavaScript `Math.round`: round half toward positive infinity. -/
def jsRound (q : ℚ) : ℤ := ⌊q + 1 / 2⌋

/-- `Math.round(x * 100) / 100`: rounding to two decimal places. -/
def round2 (q : ℚ) : ℚ := (jsRound (q * 100) : ℚ) / 100

/-- `grades.reduce((sum, grade) => sum + grade.score, 0)`. -/
def sumScores (grades : List Grade) : ℚ :=
  grades.foldl (fun s g => s + g.score) 0

/-- The average reported by `getStudentGrades` (gradeController.ts lines
118-122) and by `getMyGrades` (studentGradesController lines 37-41):
`null` when there are no grades, otherwise the mean rounded to two
decimal places. -/
def averageGrade (grades : List Grade) : Option ℚ :=
  if 0 < grades.length then some (round2 (sumScores grades / grades.length))
  else none

/-- The aggregation-pipeline average of `getGradesSummary`
(gradeController.ts lines 230-237): the exact mean when the grade array
is non-empty, `null` otherwise. -/
def summaryPipelineAverage (grades : List Grade) : Option ℚ :=
  if 0 < grades.length then some (sumScores grades / grades.length)
  else none

/-- The formatting step of `getGradesSummary` (gradeController.ts line
262): `student.averageGrade ? Math.round(student.averageGrade * 100) /
100 : null`.  A pipeline average of `0` is falsy in JavaScript, so it
falls into the `null` branch. -/
def summaryFormattedAverage (grades : List Grade) : Option ℚ :=
  match summaryPipelineAverage grades with
  | none => none
  | some a => if a = 0 then none else some (round2 a)

/-- Stable insertion of a grade into a list sorted by descending score:
the inserted (originally earlier) record goes before every record with a
score less than or equal to its own. -/
def insertDesc (g : Grade) : List Grade → List Grade
  | [] => [g]
  | h :: t => if h.score ≤ g.score then g :: h :: t else h :: insertDesc g t

/-- Model of `[...grades].sort((a, b) => b.score - a.score)`: a stable
sort by descending score (JavaScript `Array.prototype.sort` is stable). -/
def sortByScoreDesc : List Grade → List Grade
  | [] => []
  | g :: gs => insertDesc g (sortByScoreDesc gs)

/-- `highestGrade` of `getMyAcademicSummary` (studentGradesController
lines 193-197): the first element of the descending sort, `null` when
there are no grades. -/
def highestGrade (grades : List Grade) : Option Grade :=
  (sortByScoreDesc grades).head?

/-- `lowestGrade` of `getMyAcademicSummary` (studentGradesController
lines 198-201): the last element of the descending sort, `null` when
there are no grades. -/
def lowestGrade (grades : List Grade) : Option Grade :=
  (sortByScoreDesc grades).getLast?

/-- Bucket counters of the academic summary's grade distribution. -/
structure GradeDist where
  a : ℕ
  b : ℕ
  c : ℕ
  d : ℕ
  f : ℕ
deriving DecidableEq, Repr

/-- One step of the distribution tally (studentGradesController lines
203-209). -/
def tallyGrade (dist : GradeDist) (g : Grade) : GradeDist :=
  if 90 ≤ g.score then { dist with a := dist.a + 1 }
  else if 80 ≤ g.score then { dist with b := dist.b + 1 }
  else if 70 ≤ g.score then { dist with c := dist.c + 1 }
  else if 60 ≤ g.score then { dist with d := dist.d + 1 }
  else { dist with f := dist.f + 1 }

/-- `gradeDistribution` of the academic summary. -/
def gradeDistribution (grades : List Grade) : GradeDist :=
  grades.foldl tallyGrade ⟨0, 0, 0, 0, 0⟩

/-- The `academicSummary` payload computed by `getMyAcademicSummary`. -/
structure AcademicSummary where
  totalSubjects : ℕ
  average : Option ℚ
  highest : Option Grade
  lowest : Option Grade
  dist : GradeDist
  subjectGrades : List Grade
deriving DecidableEq, Repr

/-- Assembles the academic summary from a grade list exactly as the
controller does (average, sort-based extremes, distribution). -/
def academicSummaryOf (grades : List Grade) : AcademicSummary :=
  ⟨grades.length, averageGrade grades, highestGrade grades, lowestGrade grades,
    gradeDistribution grades, grades⟩

/-- The validation errors of the upsert gate. -/
inductive GradeInputError where
  | missingFields
  | badScore
  | badSubject
deriving DecidableEq, Repr

/-- The validation gate of `addOrUpdateGrade` (gradeController.ts lines
17-41), in source order: the missing-fields check (`!subject || score ===
undefined || score === null`), then the score check (`typeof score !==
'number' || score < 0 || score > 100`), then the subject check (`typeof
subject !== 'string' || subject.trim().length === 0`).  Returns the first
error hit, or `none` when the request passes validation. -/
def validateGradeInput (subject score : JsVal) : Option GradeInputError :=
  if ¬ subject.truthy ∨ score = .undef ∨ score = .nullv then some .missingFields
  else
    match score with
    | .num n =>
      if n.ltB (.fin 0) || n.gtB (.fin 100) then some .badScore
      else
        match subject with
        | .str s => if (jsTrim s).length = 0 then some .badSubject else none
        | _ => some .badSubject
    | _ => some .badScore

/-- Control-flow position the upsert handler reaches for a given request:
either it rejects during validation, rejects the id format, or goes on to
`Student.findById`, the first read of the student document. -/
inductive UpsertGate where
  | rejected (e : GradeInputError)
  | invalidId
  | proceedToDbRead
deriving DecidableEq, Repr

/-- The gate sequence of `addOrUpdateGrade` (gradeController.ts lines
17-50): input validation, then ObjectId validation, then the database
read. -/
def addOrUpdateGradeGate (subject score : JsVal) (idValid : Bool) : UpsertGate :=
  match validateGradeInput subject score with
  | some e => .rejected e
  | none => if idValid then .proceedToDbRead else .invalidId

/-- The success payload of `addOrUpdateGrade` once a student was found
(gradeController.ts lines 58-88): the new grade list, the action, and the
echoed grade object, whose subject is the request's trimmed subject. -/
structure UpsertOk where
  grades : List Grade
  action : GradeAction
  echoSubject : String
  echoScore : ℚ
deriving DecidableEq, Repr

/-- The post-validation core of `addOrUpdateGrade`: trim the subject,
upsert, and build the response payload. -/
def addOrUpdateGradeCore (grades : List Grade) (subjectRaw : String) (score : ℚ) : UpsertOk :=
  let t := jsTrim subjectRaw
  let r := upsertGrades grades t score
  ⟨r.1, r.2, t, score⟩

/-- A persisted student document (the fields the embedded operations
use). -/
structure StudentDoc where
  id : String
  studentId : String
  name : String
  email : String
  grades : List Grade
deriving DecidableEq, Repr

/-- An authenticated principal as decoded from the bearer token:
`{userId, role, studentId?}`. -/
structure Principal where
  userId : String
  role : String
  studentId : Option String
deriving DecidableEq, Repr

/-- `Student.findOne({ studentId })`: the first document whose
`studentId` equals the filter value. -/
def findOneByStudentId (db : List StudentDoc) (sid : String) : Option StudentDoc :=
  db.find? (fun d => decide (d.studentId = sid))

/-- Response of `getMyGrades`. -/
inductive MyGradesResult where
  | forbidden
  | missingClaim
  | notFound
  | ok (name sid : String) (grades : List Grade) (avg : Option ℚ)
deriving DecidableEq, Repr

/-- `getMyGrades` (studentGradesController lines 12-68): requires a
`student` principal, scopes the lookup to the token's `studentId` claim
(the path parameters are never read), and reports the grades with their
average.  The `pathSid` argument models the path-supplied id, which the
handler ignores. -/
def getMyGrades (user : Option Principal) (pathSid : Option String)
    (db : List StudentDoc) : MyGradesResult :=
  match user with
  | none => .forbidden
  | some p =>
    if p.role ≠ "student" then .forbidden
    else
      match p.studentId with
      | none => .missingClaim
      | some sid =>
        if sid = "" then .missingClaim
        else
          match findOneByStudentId db sid with
          | none => .notFound
          | some st => .ok st.name st.studentId st.grades (averageGrade st.grades)

/-- Response of `getMyGradeBySubject`. -/
inductive MySubjectResult where
  | forbidden
  | missingClaim
  | subjectRequired
  | notFound
  | gradeNotFound (availableSubjects : List String)
  | ok (name sid subject : String) (score : ℚ)
deriving DecidableEq, Repr

/-- `getMyGradeBySubject` (studentGradesController lines 79-137): same
role and claim guards, then the subject path parameter is validated and
the claim-scoped student's grade for that subject is looked up
case-insensitively. -/
def getMyGradeBySubject (user : Option Principal) (pathSid : Option String)
    (subjectParam : Option String) (db : List StudentDoc) : MySubjectResult :=
  match user with
  | none => .forbidden
  | some p =>
    if p.role ≠ "student" then .forbidden
    else
      match p.studentId with
      | none => .missingClaim
      | some sid =>
        if sid = "" then .missingClaim
        else
          match subjectParam with
          | none => .subjectRequired
          | some subj =>
            if subj = "" ∨ (jsTrim subj).length = 0 then .subjectRequired
            else
              match findOneByStudentId db sid with
              | none => .notFound
              | some st =>
                match st.grades.find? (fun g => subjMatches g (jsTrim subj)) with
                | none => .gradeNotFound (st.grades.map (fun g => g.subject))
                | some g => .ok st.name st.studentId g.subject g.score

/-- Response of `getMyAcademicSummary`. -/
inductive MySummaryResult where
  | forbidden
  | missingClaim
  | notFound
  | ok (name sid email : String) (summary : AcademicSummary)
deriving DecidableEq, Repr

/-- `getMyAcademicSummary` (studentGradesController lines 148-223): same
guards, then the full summary over the claim-scoped student's grades. -/
def getMyAcademicSummary (user : Option Principal) (pathSid : Option String)
    (db : List StudentDoc) : MySummaryResult :=
  match user with
  | none => .forbidden
  | some p =>
    if p.role ≠ "student" then .forbidden
    else
      match p.studentId with
      | none => .missingClaim
      | some sid =>
        if sid = "" then .missingClaim
        else
          match findOneByStudentId db sid with
          | none => .notFound
          | some st => .ok st.name st.studentId st.email (academicSummaryOf st.grades)

/-- A persisted enrollment record as the deletion guard consumes it. -/
structure Enrollment where
  studentRef : String
  status : String
  courseName : String
  courseCode : String
deriving DecidableEq, Repr

/-- The statuses that block deletion. -/
def activeStatuses : List String := ["active", "enrolled", "in_progress"]

/-- The Mongo query filter of `checkActiveEnrollments`
(deleteStudentController.ts lines 272-278): the enrollment's student
reference matches the Mongo `_id` or the human-readable `studentId`, and
its status is in the active set. -/
def enrollmentQueryMatches (oid sid : String) (e : Enrollment) : Bool :=
  (decide (e.studentRef = oid) || decide (e.studentRef = sid)) &&
    activeStatuses.contains e.status

/-- `Enrollment.find` with the guard's filter over the whole enrollment
table. -/
def enrollmentFind (table : List Enrollment) (oid sid : String) : List Enrollment :=
  table.filter (enrollmentQueryMatches oid sid)

/-- An entry of the guard's `enrollments` report: either a denormalized
enrollment entry, or the synthetic entry produced when the lookup itself
failed. -/
inductive EnrollInfo where
  | entry (courseName courseCode status : String)
  | syntheticError (msg : String)
deriving DecidableEq, Repr

/-- The guard's verdict. -/
structure EnrollCheck where
  hasActive : Bool
  enrollments : List EnrollInfo
deriving DecidableEq, Repr

/-- `checkActiveEnrollments` (deleteStudentController.ts lines 267-338):
query the enrollment table for active-status enrollments of the student;
on success report whether any exist together with their denormalized
course data; if the lookup throws, fail closed with `hasActive: true` and
a single synthetic error entry. -/
def checkActiveEnrollments (table : List Enrollment) (throws : Bool)
    (oid sid : String) : EnrollCheck :=
  if throws then ⟨true, [.syntheticError "Could not verify enrollment status"]⟩
  else
    let active := enrollmentFind table oid sid
    ⟨decide (0 < active.length),
      active.map (fun e => .entry e.courseName e.courseCode e.status)⟩

/-- Response of the single-student delete once the student was found. -/
structure DeleteResponse where
  status : ℕ
  activeEnrollments : List EnrollInfo
  deleted : Bool
deriving DecidableEq, Repr

/-- `deleteStudent` (deleteStudentController.ts lines 42-80), from the
point where the student was found: run the guard; on `hasActive` answer
409 Conflict surfacing the blocking enrollments and leave the student
table untouched; otherwise remove the document by id and answer 200. -/
def deleteStudentOp (students : List StudentDoc) (table : List Enrollment)
    (throws : Bool) (s : StudentDoc) : DeleteResponse × List StudentDoc :=
  let chk := checkActiveEnrollments table throws s.id s.studentId
  if chk.hasActive then (⟨409, chk.enrollments, false⟩, students)
  else (⟨200, [], true⟩, students.eraseP (fun d => decide (d.id = s.id)))

/-- The bucket a bulk-delete candidate lands in. -/
inductive BulkTag where
  | success
  | blocked
  | failedErr
deriving DecidableEq, Repr

/-- Classification of one bulk-delete candidate (the body of the loop in
deleteStudentController.ts lines 134-172): blocked when the guard
reports active enrollments, failed when the per-candidate deletion throws
(`deleteThrows`), successful otherwise.  `checkThrows` models whether the
enrollment lookup for this candidate throws internally. -/
def bulkTag (table : List Enrollment) (checkThrows deleteThrows : StudentDoc → Bool)
    (s : StudentDoc) : BulkTag :=
  if (checkActiveEnrollments table (checkThrows s) s.id s.studentId).hasActive then .blocked
  else if deleteThrows s then .failedErr
  else .success

/-- The three result buckets of the bulk delete. -/
structure BulkResults where
  successful : List StudentDoc
  failed : List StudentDoc
  blockedByEnrollments : List StudentDoc
deriving DecidableEq, Repr

/-- The bulk-delete loop (deleteStudentController.ts lines 128-172):
each found candidate is processed inside its own try/catch, appending to
exactly one bucket; an error for one candidate is caught and recorded
without touching the remaining candidates. -/
def bulkDeleteProcess (table : List Enrollment)
    (checkThrows deleteThrows : StudentDoc → Bool) :
    List StudentDoc → BulkResults
  | [] => ⟨[], [], []⟩
  | s :: ss =>
    let r := bulkDeleteProcess table checkThrows deleteThrows ss
    let chk := checkActiveEnrollments table (checkThrows s) s.id s.studentId
    if chk.hasActive then
      { r with blockedByEnrollments := s :: r.blockedByEnrollments }
    else if deleteThrows s then { r with failed := s :: r.failed }
    else { r with successful := s :: r.successful }

/-- The tri-state response status of the bulk delete
(deleteStudentController.ts lines 174-188): 409 when nothing succeeded
and something was blocked, 500 when nothing succeeded and nothing was
blocked, 207 Multi-Status for partial success, 200 for full success. -/
def bulkStatus (r : BulkResults) : ℕ :=
  if r.successful.length = 0 then
    if 0 < r.blockedByEnrollments.length then 409 else 500
  else if 0 < r.failed.length ∨ 0 < r.blockedByEnrollments.length then 207
  else 200

/-- One decimal digit for the parseInt model. -/
def decDigit (c : Char) : Option ℕ :=
  if c.isDigit then some (c.toNat - 48) else none

/-- One hexadecimal digit for the parseInt model. -/
def hexDigit (c : Char) : Option ℕ :=
  if c.isDigit then some (c.toNat - 48)
  else if 'a' ≤ c ∧ c ≤ 'f' then some (c.toNat - 87)
  else if 'A' ≤ c ∧ c ≤ 'F' then some (c.toNat - 55)
  else none

/-- Accumulates the longest digit run at the front of the character
list. -/
def parseDigits (base : ℕ) (toVal : Char → Option ℕ) : List Char → ℕ → ℕ
  | [], acc => acc
  | c :: cs, acc =>
    match toVal c with
    | some d => parseDigits base toVal cs (acc * base + d)
    | none => acc

/-- Model of JavaScript `parseInt(s)` with no radix argument: skip
leading whitespace, read an optional sign, honor a `0x`/`0X` prefix as
hexadecimal, otherwise read leading decimal digits; NaN (`none`) when no
digit follows. -/
def jsParseIntChars (cs : List Char) : Option ℤ :=
  let cs := cs.dropWhile (fun c => c.isWhitespace)
  let signAndRest : ℤ × List Char :=
    match cs with
    | '-' :: rest => (-1, rest)
    | '+' :: rest => (1, rest)
    | _ => (1, cs)
  let sign := signAndRest.1
  match signAndRest.2 with
  | '0' :: x :: rest =>
    if x = 'x' ∨ x = 'X' then
      match rest with
      | c :: _ => if (hexDigit c).isSome then some (sign * parseDigits 16 hexDigit rest 0) else none
      | [] => none
    else some (sign * parseDigits 10 decDigit ('0' :: x :: rest) 0)
  | c :: rest =>
    if (decDigit c).isSome then some (sign * parseDigits 10 decDigit (c :: rest) 0)
    else none
  | [] => none

/-- `parseInt(req.query.page as string)`: an absent query value is the
JavaScript `undefined`, whose string coercion parses to NaN. -/
def jsParseInt (q : Option String) : Option ℤ :=
  match q with
  | none => none
  | some s => jsParseIntChars s.toList

/-- `parseInt(req.query.page as string) || 1`: NaN and 0 are falsy and
fall back to the default. -/
def pageOf (q : Option String) : ℤ :=
  match jsParseInt q with
  | none => 1
  | some n => if n = 0 then 1 else n

/-- `parseInt(req.query.limit as string) || 10`. -/
def limitOf (q : Option String) : ℤ :=
  match jsParseInt q with
  | none => 10
  | some n => if n = 0 then 10 else n

/-- `Math.ceil(totalStudents / limit)`. -/
def totalPagesOf (total : ℕ) (limit : ℤ) : ℤ := ⌈(total : ℚ) / (limit : ℚ)⌉

/-- The pagination envelope both list operations report. -/
structure Pagination where
  currentPage : ℤ
  totalPages : ℤ
  totalStudents : ℕ
  hasNextPage : Bool
  hasPreviousPage : Bool
deriving DecidableEq, Repr

/-- The pagination block of `getGradesSummary` (gradeController.ts lines
218-221 and 276-282), as a total function of the raw query values and the
collection count: parse-with-default, `totalPages = ceil(total / limit)`,
`hasNextPage = page < totalPages`, `hasPreviousPage = page > 1`. -/
def getGradesSummaryPagination (pageQ limitQ : Option String) (total : ℕ) : Pagination :=
  let page := pageOf pageQ
  let limit := limitOf limitQ
  let totalPages := totalPagesOf total limit
  ⟨page, totalPages, total, decide (page < totalPages), decide (1 < page)⟩

/-- The pagination block of `getAllStudents` (studentController in
deleteStudentController's companion file, lines 449-470): textually the
same computation as the grades summary's. -/
def getAllStudentsPagination (pageQ limitQ : Option String) (total : ℕ) : Pagination :=
  let page := pageOf pageQ
  let limit := limitOf limitQ
  let totalPages := totalPagesOf total limit
  ⟨page, totalPages, total, decide (page < totalPages), decide (1 < page)⟩

/-- First occurrence of a case-insensitive subject match, used to state
which stored label survives an upsert. -/
def firstMatchLabel (grades : List Grade) (key : String) : String :=
  match grades.find? (fun g => subjMatches g key) with
  | some g => g.subject
  | none => key

/-- Claim C1: the single-student and self-service reads compute `round2`
of the mean (and `null` only when empty), but the paginated grades
summary formats the pipeline average through a JavaScript truthiness
check, so a non-empty grade list whose mean is 0 — for example the
single record `{subject: "Math", score: 0}` — is reported with
`averageGrade: null`.  This evaluates the embedded code at that failing
input: the direct read path reports the correct `some 0`, while the
summary path reports `none` although the list is non-empty. -/
theorem summary_average_zero_reported_null :
    averageGrade [⟨"Math", 0⟩] = some 0 ∧
    summaryFormattedAverage [⟨"Math", 0⟩] = none ∧
    ([⟨"Math", 0⟩] : List Grade) ≠ [] := by
  refine ⟨?_, ?_, by decide⟩
  · norm_num [averageGrade, sumScores, round2, jsRound]
  · norm_num [summaryFormattedAverage, summaryPipelineAverage, sumScores]

/-- Claim C5: the validation gate of `addOrUpdateGrade` accepts
`score = NaN`: `typeof NaN === 'number'` and both `NaN < 0` and
`NaN > 100` are false, so the handler proceeds to `Student.findById` —
the student document is read (and then mutated) although NaN is not a
finite number in [0,100].  The infinities, by contrast, are rejected as
the claim demands. -/
theorem nan_score_passes_validation :
    validateGradeInput (.str "Math") (.num .nan) = none ∧
    addOrUpdateGradeGate (.str "Math") (.num .nan) true = .proceedToDbRead ∧
    validateGradeInput (.str "Math") (.num .posInf) = some .badScore ∧
    validateGradeInput (.str "Math") (.num .negInf) = some .badScore := by
  decide

/-- Claim C9: for every pagination input (present or absent, numeric or
not) and every collection count, both paginated list operations report
`totalPages = ceil(totalCount / limit)`, `hasNextPage = page <
totalPages` and `hasPreviousPage = page > 1`; page and limit fall back to
1 and 10 whenever parseInt cannot parse the input (in particular when it
is absent); and the effective limit is never 0, so the computation is a
total function that responds on every input. -/
theorem pagination_contract (pq lq : Option String) (total : ℕ) :
    getGradesSummaryPagination pq lq total =
      ⟨pageOf pq, ⌈(total : ℚ) / ((limitOf lq : ℤ) : ℚ)⌉, total,
        decide (pageOf pq < ⌈(total : ℚ) / ((limitOf lq : ℤ) : ℚ)⌉),
        decide (1 < pageOf pq)⟩ ∧
    getAllStudentsPagination pq lq total = getGradesSummaryPagination pq lq total ∧
    (jsParseInt pq = none → pageOf pq = 1) ∧
    (jsParseInt lq = none → limitOf lq = 10) ∧
    limitOf lq ≠ 0 := by
  refine ⟨rfl, rfl, ?_, ?_, ?_⟩
  · intro h
    simp [pageOf, h]
  · intro h
    simp [limitOf, h]
  · unfold limitOf
    cases jsParseInt lq with
    | none => simp
    | some n =>
      by_cases hn : n = 0
      · simp [hn]
      · simp [hn]

/-- Claim C9 witness: at `page="abc"` (non-numeric) and an absent limit
the defaults kick in, and with 15 students and limit 5 at page 2 the
contract yields 3 total pages with both neighbour flags set. -/
theorem pagination_contract_witness :
    pageOf (some "abc") = 1 ∧ limitOf none = 10 ∧
    getGradesSummaryPagination (some "2") (some "5") 15 =
      ⟨pageOf (some "2"), ⌈(15 : ℚ) / ((limitOf (some "5") : ℤ) : ℚ)⌉, 15,
        decide (pageOf (some "2") < ⌈(15 : ℚ) / ((limitOf (some "5") : ℤ) : ℚ)⌉),
        decide (1 < pageOf (some "2"))⟩ := by
  refine ⟨(pagination_contract (some "abc") none 15).2.2.1 (by decide),
    (pagination_contract (some "abc") none 15).2.2.2.1 rfl,
    (pagination_contract (some "2") (some "5") 15).1⟩

/-- Claim C2: the guard reports a found student deletable (no active
flag) exactly when the enrollment lookup succeeds and the filtered query
returns no enrollment with status in {active, enrolled, in_progress}; a
throwing lookup fails closed with the single synthetic blocking entry;
and whenever the guard reports active enrollments, the single delete
answers 409 Conflict surfacing exactly the guard's enrollments and
returns the student table unchanged. -/
theorem deletion_guard_contract (table : List Enrollment) (throws : Bool)
    (students : List StudentDoc) (s : StudentDoc) :
    ((checkActiveEnrollments table throws s.id s.studentId).hasActive = false ↔
      (throws = false ∧ enrollmentFind table s.id s.studentId = [])) ∧
    (throws = true →
      checkActiveEnrollments table throws s.id s.studentId =
        ⟨true, [.syntheticError "Could not verify enrollment status"]⟩) ∧
    ((checkActiveEnrollments table throws s.id s.studentId).hasActive = true →
      deleteStudentOp students table throws s =
        (⟨409, (checkActiveEnrollments table throws s.id s.studentId).enrollments, false⟩,
          students)) := by
  refine ⟨?_, ?_, ?_⟩
  · cases throws with
    | true => simp [checkActiveEnrollments]
    | false => simp [checkActiveEnrollments, List.length_eq_zero]
  · intro h
    subst h
    rfl
  · intro h
    unfold deleteStudentOp
    rw [if_pos h]

/-- Claim C2 witness: a student with one `enrolled` enrollment is
reported non-deletable and the blocked single delete answers 409 with
that enrollment surfaced, leaving the table unchanged; in the same
setting a throwing lookup yields the synthetic entry. -/
theorem deletion_guard_contract_witness :
    deleteStudentOp [⟨"oid1", "S1", "Ann", "ann@x.co", []⟩]
        [⟨"S1", "enrolled", "Calculus", "MATH101"⟩] false
        ⟨"oid1", "S1", "Ann", "ann@x.co", []⟩ =
      (⟨409,
        (checkActiveEnrollments [⟨"S1", "enrolled", "Calculus", "MATH101"⟩] false
            "oid1" "S1").enrollments, false⟩,
        [⟨"oid1", "S1", "Ann", "ann@x.co", []⟩]) ∧
    checkActiveEnrollments [⟨"S1", "enrolled", "Calculus", "MATH101"⟩] true "oid1" "S1" =
      ⟨true, [.syntheticError "Could not verify enrollment status"]⟩ := by
  refine ⟨(deletion_guard_contract _ false _ _).2.2 (by decide),
    (deletion_guard_contract [⟨"S1", "enrolled", "Calculus", "MATH101"⟩] true
      [⟨"oid1", "S1", "Ann", "ann@x.co", []⟩] ⟨"oid1", "S1", "Ann", "ann@x.co", []⟩).2.1 rfl⟩

/-- The per-candidate classification agrees bucket-by-bucket with the
loop: each bucket of the bulk delete is the in-order sublist of
candidates carrying the corresponding tag, so a candidate's placement
depends only on its own enrollment check and deletion outcome. -/
theorem bulkDeleteProcess_eq_filter (table : List Enrollment)
    (cT dT : StudentDoc → Bool) (students : List StudentDoc) :
    (bulkDeleteProcess table cT dT students).successful
        = students.filter (fun s => decide (bulkTag table cT dT s = .success)) ∧
    (bulkDeleteProcess table cT dT students).failed
        = students.filter (fun s => decide (bulkTag table cT dT s = .failedErr)) ∧
    (bulkDeleteProcess table cT dT students).blockedByEnrollments
        = students.filter (fun s => decide (bulkTag table cT dT s = .blocked)) := by
  induction students with
  | nil => exact ⟨rfl, rfl, rfl⟩
  | cons s ss ih =>
    obtain ⟨ih1, ih2, ih3⟩ := ih
    by_cases hb : (checkActiveEnrollments table (cT s) s.id s.studentId).hasActive
    · simp [bulkDeleteProcess, bulkTag, hb, ih1, ih2, ih3, List.filter]
    · by_cases hd : dT s
      · simp [bulkDeleteProcess, bulkTag, hb, hd, ih1, ih2, ih3, List.filter]
      · simp [bulkDeleteProcess, bulkTag, hb, hd, ih1, ih2, ih3, List.filter]

/-- Bucket sizes always add up to the number of found candidates. -/
theorem bulkDeleteProcess_total (table : List Enrollment)
    (cT dT : StudentDoc → Bool) (students : List StudentDoc) :
    (bulkDeleteProcess table cT dT students).successful.length
      + (bulkDeleteProcess table cT dT students).failed.length
      + (bulkDeleteProcess table cT dT students).blockedByEnrollments.length
      = students.length := by
  induction students with
  | nil => rfl
  | cons s ss ih =>
    by_cases hb : (checkActiveEnrollments table (cT s) s.id s.studentId).hasActive
    · simp only [bulkDeleteProcess, if_pos hb]
      simp only [List.length_cons]
      omega
    · by_cases hd : dT s
      · simp only [bulkDeleteProcess, if_neg hb, if_pos hd]
        simp only [List.length_cons]
        omega
      · simp only [bulkDeleteProcess, if_neg hb, if_neg hd]
        simp only [List.length_cons]
        omega

/-- Claim C4: every found candidate of a bulk delete lands in exactly one
bucket (the buckets are the tag-filtered sublists, so membership depends
only on the candidate's own outcome, and the bucket sizes sum to the
number of found candidates), and whenever some candidate succeeded while
another was blocked or failed, the reported status is 207 partial
success. -/
theorem bulk_delete_partition (table : List Enrollment)
    (cT dT : StudentDoc → Bool) (students : List StudentDoc) :
    ((bulkDeleteProcess table cT dT students).successful
        = students.filter (fun s => decide (bulkTag table cT dT s = .success)) ∧
      (bulkDeleteProcess table cT dT students).failed
        = students.filter (fun s => decide (bulkTag table cT dT s = .failedErr)) ∧
      (bulkDeleteProcess table cT dT students).blockedByEnrollments
        = students.filter (fun s => decide (bulkTag table cT dT s = .blocked))) ∧
    ((bulkDeleteProcess table cT dT students).successful.length
        + (bulkDeleteProcess table cT dT students).failed.length
        + (bulkDeleteProcess table cT dT students).blockedByEnrollments.length
        = students.length) ∧
    (0 < (bulkDeleteProcess table cT dT students).successful.length →
      0 < (bulkDeleteProcess table cT dT students).failed.length
        + (bulkDeleteProcess table cT dT students).blockedByEnrollments.length →
      bulkStatus (bulkDeleteProcess table cT dT students) = 207) := by
  refine ⟨bulkDeleteProcess_eq_filter table cT dT students,
    bulkDeleteProcess_total table cT dT students, ?_⟩
  intro hs hf
  unfold bulkStatus
  rw [if_neg (by omega), if_pos (by omega)]

/-- Claim C4 witness: three found candidates of which exactly one (S2)
has an active enrollment: two are deleted, one is blocked, none fail,
and the overall status is 207 partial success. -/
theorem bulk_delete_partition_witness :
    (bulkDeleteProcess [⟨"S2", "active", "Calculus", "MATH101"⟩]
        (fun _ => false) (fun _ => false)
        [⟨"o1", "S1", "Ann", "a@x.co", []⟩, ⟨"o2", "S2", "Bob", "b@x.co", []⟩,
          ⟨"o3", "S3", "Cal", "c@x.co", []⟩]).successful.length = 2 ∧
    (bulkDeleteProcess [⟨"S2", "active", "Calculus", "MATH101"⟩]
        (fun _ => false) (fun _ => false)
        [⟨"o1", "S1", "Ann", "a@x.co", []⟩, ⟨"o2", "S2", "Bob", "b@x.co", []⟩,
          ⟨"o3", "S3", "Cal", "c@x.co", []⟩]).blockedByEnrollments.length = 1 ∧
    bulkStatus (bulkDeleteProcess [⟨"S2", "active", "Calculus", "MATH101"⟩]
        (fun _ => false) (fun _ => false)
        [⟨"o1", "S1", "Ann", "a@x.co", []⟩, ⟨"o2", "S2", "Bob", "b@x.co", []⟩,
          ⟨"o3", "S3", "Cal", "c@x.co", []⟩]) = 207 := by
  refine ⟨by decide, by decide,
    (bulk_delete_partition [⟨"S2", "active", "Calculus", "MATH101"⟩]
      (fun _ => false) (fun _ => false)
      [⟨"o1", "S1", "Ann", "a@x.co", []⟩, ⟨"o2", "S2", "Bob", "b@x.co", []⟩,
        ⟨"o3", "S3", "Cal", "c@x.co", []⟩]).2.2 (by decide) (by decide)⟩

/-- A document found by the `studentId` filter carries that id. -/
theorem findOneByStudentId_studentId {db : List StudentDoc} {sid : String}
    {st : StudentDoc} (h : findOneByStudentId db sid = some st) :
    st.studentId = sid := by
  unfold findOneByStudentId at h
  simpa using List.find?_some h

/-- Claim C3: the three self-service reads ignore any path-supplied
student id (changing it never changes the response); a missing or
non-student principal is rejected as forbidden; a student principal
without a `studentId` claim is rejected with the missing-claim error; and
every success payload is drawn from the document found by
`findOne({studentId})` with the principal's own claim — in particular the
reported `studentId` always equals the claim. -/
theorem self_service_scope (u : Option Principal) (p1 p2 subj : Option String)
    (db : List StudentDoc) :
    (getMyGrades u p1 db = getMyGrades u p2 db ∧
      getMyGradeBySubject u p1 subj db = getMyGradeBySubject u p2 subj db ∧
      getMyAcademicSummary u p1 db = getMyAcademicSummary u p2 db) ∧
    (u = none →
      getMyGrades u p1 db = .forbidden ∧
      getMyGradeBySubject u p1 subj db = .forbidden ∧
      getMyAcademicSummary u p1 db = .forbidden) ∧
    (∀ p, u = some p → p.role ≠ "student" →
      getMyGrades u p1 db = .forbidden ∧
      getMyGradeBySubject u p1 subj db = .forbidden ∧
      getMyAcademicSummary u p1 db = .forbidden) ∧
    (∀ p, u = some p → p.role = "student" → p.studentId = none →
      getMyGrades u p1 db = .missingClaim ∧
      getMyGradeBySubject u p1 subj db = .missingClaim ∧
      getMyAcademicSummary u p1 db = .missingClaim) ∧
    (∀ p n sid gs avg, u = some p → getMyGrades u p1 db = .ok n sid gs avg →
      ∃ st, p.studentId = some st.studentId ∧
        findOneByStudentId db st.studentId = some st ∧
        n = st.name ∧ sid = st.studentId ∧ gs = st.grades ∧
        avg = averageGrade st.grades) ∧
    (∀ p n sid sj sc, u = some p → getMyGradeBySubject u p1 subj db = .ok n sid sj sc →
      ∃ st, p.studentId = some st.studentId ∧
        findOneByStudentId db st.studentId = some st ∧
        n = st.name ∧ sid = st.studentId ∧
        ∃ g, g ∈ st.grades ∧ sj = g.subject ∧ sc = g.score) ∧
    (∀ p n sid em sm, u = some p → getMyAcademicSummary u p1 db = .ok n sid em sm →
      ∃ st, p.studentId = some st.studentId ∧
        findOneByStudentId db st.studentId = some st ∧
        n = st.name ∧ sid = st.studentId ∧ em = st.email ∧
        sm = academicSummaryOf st.grades) := by
  refine ⟨⟨rfl, rfl, rfl⟩, ?_, ?_, ?_, ?_, ?_, ?_⟩
  · rintro rfl
    exact ⟨rfl, rfl, rfl⟩
  · rintro p rfl hr
    refine ⟨?_, ?_, ?_⟩ <;>
      simp [getMyGrades, getMyGradeBySubject, getMyAcademicSummary, hr]
  · rintro p rfl hr hsid
    refine ⟨?_, ?_, ?_⟩ <;>
      simp [getMyGrades, getMyGradeBySubject, getMyAcademicSummary, hr, hsid]
  · rintro p n sid gs avg rfl hok
    by_cases hr : p.role = "student"
    · cases hcl : p.studentId with
      | none => simp [getMyGrades, hr, hcl] at hok
      | some s =>
        by_cases hz : s = ""
        · simp [getMyGrades, hr, hcl, hz] at hok
        · cases hf : findOneByStudentId db s with
          | none => simp [getMyGrades, hr, hcl, hz, hf] at hok
          | some st =>
            simp [getMyGrades, hr, hcl, hz, hf] at hok
            have hsid : st.studentId = s := findOneByStudentId_studentId hf
            obtain ⟨h1, h2, h3, h4⟩ := hok
            exact ⟨st, by rw [hsid], by rw [hsid]; exact hf,
              h1.symm, h2.symm, h3.symm, h4.symm⟩
    · simp [getMyGrades, hr] at hok
  · rintro p n sid sj sc rfl hok
    by_cases hr : p.role = "student"
    · cases hcl : p.studentId with
      | none => simp [getMyGradeBySubject, hr, hcl] at hok
      | some s =>
        by_cases hz : s = ""
        · simp [getMyGradeBySubject, hr, hcl, hz] at hok
        · cases subj with
          | none => simp [getMyGradeBySubject, hr, hcl, hz] at hok
          | some sb =>
            by_cases hsb : sb = "" ∨ (jsTrim sb).length = 0
            · simp [getMyGradeBySubject, hr, hcl, hz, hsb] at hok
            · cases hf : findOneByStudentId db s with
              | none => simp [getMyGradeBySubject, hr, hcl, hz, hsb, hf] at hok
              | some st =>
                cases hg : st.grades.find? (fun g => subjMatches g (jsTrim sb)) with
                | none => simp [getMyGradeBySubject, hr, hcl, hz, hsb, hf, hg] at hok
                | some g =>
                  simp [getMyGradeBySubject, hr, hcl, hz, hsb, hf, hg] at hok
                  have hsid : st.studentId = s := findOneByStudentId_studentId hf
                  obtain ⟨h1, h2, h3, h4⟩ := hok
                  exact ⟨st, by rw [hsid], by rw [hsid]; exact hf,
                    h1.symm, h2.symm, g, List.mem_of_find?_eq_some hg,
                    h3.symm, h4.symm⟩
    · simp [getMyGradeBySubject, hr] at hok
  · rintro p n sid em sm rfl hok
    by_cases hr : p.role = "student"
    · cases hcl : p.studentId with
      | none => simp [getMyAcademicSummary, hr, hcl] at hok
      | some s =>
        by_cases hz : s = ""
        · simp [getMyAcademicSummary, hr, hcl, hz] at hok
        · cases hf : findOneByStudentId db s with
          | none => simp [getMyAcademicSummary, hr, hcl, hz, hf] at hok
          | some st =>
            simp [getMyAcademicSummary, hr, hcl, hz, hf] at hok
            have hsid : st.studentId = s := findOneByStudentId_studentId hf
            obtain ⟨h1, h2, h3, h4⟩ := hok
            exact ⟨st, by rw [hsid], by rw [hsid]; exact hf,
              h1.symm, h2.symm, h3.symm, h4.symm⟩
    · simp [getMyAcademicSummary, hr] at hok

/-- Claim C3 witness: a student principal with claim S1 gets the same
answer whether the path names S2 or nothing, and a teacher principal is
forbidden; the missing-claim rejection fires for a student principal
without a claim. -/
theorem self_service_scope_witness :
    getMyGrades (some ⟨"u1", "student", some "S1"⟩) (some "S2")
        [⟨"o1", "S1", "Ann", "a@x.co", [⟨"Math", 90⟩]⟩] =
      getMyGrades (some ⟨"u1", "student", some "S1"⟩) none
        [⟨"o1", "S1", "Ann", "a@x.co", [⟨"Math", 90⟩]⟩] ∧
    getMyGrades (some ⟨"u2", "teacher", none⟩) (some "S1")
        [⟨"o1", "S1", "Ann", "a@x.co", [⟨"Math", 90⟩]⟩] = .forbidden ∧
    getMyGrades (some ⟨"u3", "student", none⟩) (some "S1")
        [⟨"o1", "S1", "Ann", "a@x.co", [⟨"Math", 90⟩]⟩] = .missingClaim := by
  refine ⟨(self_service_scope (some ⟨"u1", "student", some "S1"⟩) (some "S2") none none
      [⟨"o1", "S1", "Ann", "a@x.co", [⟨"Math", 90⟩]⟩]).1.1,
    ((self_service_scope (some ⟨"u2", "teacher", none⟩) (some "S1") none none
      [⟨"o1", "S1", "Ann", "a@x.co", [⟨"Math", 90⟩]⟩]).2.2.1 _ rfl (by decide)).1,
    ((self_service_scope (some ⟨"u3", "student", none⟩) (some "S1") none none
      [⟨"o1", "S1", "Ann", "a@x.co", [⟨"Math", 90⟩]⟩]).2.2.2.1 _ rfl rfl rfl).1⟩

/-- When the case-insensitive match sits at index `i`, the upsert is the
in-place update at `i` keeping the stored subject string. -/
theorem upsertGrades_update_eq (k : String) (v : ℚ) :
    ∀ (G : List Grade) (i : ℕ) (hlt : i < G.length),
      G.findIdx (fun g => subjMatches g k) = i →
      upsertGrades G k v = (G.set i ⟨(G.get ⟨i, hlt⟩).subject, v⟩, .updated) := by
  intro G
  induction G with
  | nil => intro i hlt; simp at hlt
  | cons g gs ih =>
    intro i hlt hidx
    by_cases hm : subjMatches g k
    · have hi0 : i = 0 := by
        rw [← hidx]
        simp [List.findIdx_cons, hm]
      subst hi0
      simp [upsertGrades, hm]
    · have hcons : (g :: gs).findIdx (fun x => subjMatches x k)
          = gs.findIdx (fun x => subjMatches x k) + 1 := by
        simp [List.findIdx_cons, hm]
      rw [hcons] at hidx
      cases i with
      | zero => exact absurd hidx (by simp)
      | succ j =>
        have hj : gs.findIdx (fun x => subjMatches x k) = j := by omega
        have hjlt : j < gs.length := by simpa using hlt
        simp only [upsertGrades, if_neg hm]
        rw [ih j hjlt hj]
        simp [List.set_cons_succ, List.get_cons_succ]

/-- Claim C10: when the upsert matches an existing record at index `i`,
the stored list changes only at that index, where the score is replaced
and the stored subject string (with its original casing) is kept, while
the response echoes the request's trimmed subject. -/
theorem upsert_update_frame (G : List Grade) (raw : String) (v : ℚ) (i : ℕ)
    (hlt : i < G.length)
    (hidx : G.findIdx (fun g => subjMatches g (jsTrim raw)) = i) :
    addOrUpdateGradeCore G raw v =
      ⟨G.set i ⟨(G.get ⟨i, hlt⟩).subject, v⟩, .updated, jsTrim raw, v⟩ := by
  show (⟨(upsertGrades G (jsTrim raw) v).1, (upsertGrades G (jsTrim raw) v).2,
      jsTrim raw, v⟩ : UpsertOk) = _
  rw [upsertGrades_update_eq (jsTrim raw) v G i hlt hidx]

/-- Claim C10 witness: requesting subject " mATH " against a stored
"Math" record updates the score in place, keeps the stored casing
"Math", and echoes the trimmed request subject "mATH". -/
theorem upsert_update_frame_witness :
    addOrUpdateGradeCore [⟨"Math", 80⟩] " mATH " 95 =
      ⟨([⟨"Math", 80⟩] : List Grade).set 0
          ⟨(([⟨"Math", 80⟩] : List Grade).get ⟨0, by decide⟩).subject, 95⟩, .updated,
        jsTrim " mATH ", 95⟩ :=
  upsert_update_frame [⟨"Math", 80⟩] " mATH " 95 0 (by decide) (by decide)

/-- Two upserts under keys with the same lower-cased form leave exactly
one matching record, scored by the second upsert and labeled by the
subject string under which the record was first stored. -/
theorem upsert_case_pair (k1 k2 : String) (hk : jsToLower k1 = jsToLower k2)
    (x y : ℚ) : ∀ G : List Grade,
    (G.filter (fun g => subjMatches g k1)).length ≤ 1 →
    ((upsertGrades (upsertGrades G k1 x).1 k2 y).1).filter (fun g => subjMatches g k1)
      = [⟨firstMatchLabel G k1, y⟩] := by
  intro G
  induction G with
  | nil =>
    intro _
    have hm : subjMatches ⟨k1, x⟩ k2 = true := decide_eq_true (by simp only; rw [hk])
    have hm2 : subjMatches ⟨k1, y⟩ k1 = true := decide_eq_true rfl
    simp [upsertGrades, hm, firstMatchLabel, List.filter_cons, hm2]
  | cons g gs ih =>
    intro hinv
    by_cases hm : subjMatches g k1
    · have hmp : jsToLower g.subject = jsToLower k1 := of_decide_eq_true hm
      have hm2 : subjMatches (⟨g.subject, x⟩ : Grade) k2 = true :=
        decide_eq_true (by simp only; rw [hmp, hk])
      have hm3 : subjMatches (⟨g.subject, y⟩ : Grade) k1 = true := decide_eq_true hmp
      have hfgs : gs.filter (fun a => subjMatches a k1) = [] := by
        have h2 : (g :: gs).filter (fun a => subjMatches a k1)
            = g :: gs.filter (fun a => subjMatches a k1) := by
          simp [List.filter_cons, hm]
        have h3 := hinv
        rw [h2] at h3
        simp only [List.length_cons] at h3
        exact List.length_eq_zero.mp (by omega)
      have hlbl : firstMatchLabel (g :: gs) k1 = g.subject := by
        simp [firstMatchLabel, List.find?_cons, hm]
      rw [hlbl]
      simp [upsertGrades, hm, hm2, List.filter_cons, hm3, hfgs]
    · have hne : jsToLower g.subject ≠ jsToLower k1 := by
        simpa [subjMatches] using hm
      have hm2 : ¬ subjMatches g k2 = true := by
        simp only [subjMatches, ← hk]
        simpa using hne
      have hinv2 : (gs.filter (fun a => subjMatches a k1)).length ≤ 1 := by
        have h3 := hinv
        rwa [List.filter_cons_of_neg (by simpa using hm)] at h3
      have hlbl : firstMatchLabel (g :: gs) k1 = firstMatchLabel gs k1 := by
        simp only [firstMatchLabel, List.find?_cons]
        rw [show subjMatches g k1 = false from by simpa using hm]
      simp only [upsertGrades, if_neg hm, if_neg hm2]
      rw [List.filter_cons_of_neg (by simpa using hm), hlbl]
      exact ih hinv2

/-- Claim C6 amended: upserting "math" then "Math" leaves exactly one
record matching "math" case-insensitively, carrying the second score and
labeled with the subject string under which it was first stored (the
existing record's casing, or "math" when freshly inserted) — not
relabeled to "Math". -/
theorem upsert_case_insensitive (G : List Grade) (x y : ℚ)
    (hinv : (G.filter (fun g => subjMatches g "math")).length ≤ 1) :
    ((upsertGrades (upsertGrades G "math" x).1 "Math" y).1).filter
        (fun g => subjMatches g "math") = [⟨firstMatchLabel G "math", y⟩] :=
  upsert_case_pair "math" "Math" (by decide) x y G hinv

/-- Claim C6 counterexample: starting from the empty grade list, the
surviving record is labeled "math" (the first insert's trimmed casing),
not "Math" as the claim states. -/
theorem upsert_case_insensitive_cex :
    (upsertGrades (upsertGrades [] "math" 70).1 "Math" 95).1 = [⟨"math", 95⟩] ∧
    "math" ≠ "Math" := by decide

/-- Claim C6 witness: against a stored "MATH" record both upserts update
in place and the surviving record keeps the label "MATH" with the second
score. -/
theorem upsert_case_insensitive_witness :
    ((upsertGrades (upsertGrades [⟨"MATH", 50⟩] "math" 70).1 "Math" 95).1).filter
        (fun g => subjMatches g "math") = [⟨firstMatchLabel [⟨"MATH", 50⟩] "math", 95⟩] :=
  upsert_case_insensitive [⟨"MATH", 50⟩] 70 95 (by decide)

/-- Claim C7 amended: when no record of G matches the trimmed subject
case-insensitively, removing that subject right after upserting it
returns exactly the upserted record and restores G itself (hence G as a
multiset of subject/score pairs). -/
theorem upsert_remove_roundtrip (G : List Grade) (s : String) (v : ℚ)
    (hne : 0 < (jsTrim s).length) (hv : 0 ≤ v ∧ v ≤ 100)
    (hnomatch : ∀ g ∈ G, subjMatches g (jsTrim s) = false) :
    removeGrades (upsertGrades G (jsTrim s) v).1 (jsTrim s) = some (⟨jsTrim s, v⟩, G) := by
  induction G with
  | nil => simp [upsertGrades, removeGrades, subjMatches]
  | cons g gs ih =>
    have hg := hnomatch g (by simp)
    have hrest : ∀ a ∈ gs, subjMatches a (jsTrim s) = false :=
      fun a ha => hnomatch a (List.mem_cons_of_mem _ ha)
    simp [upsertGrades, hg, removeGrades, ih hrest]

/-- Claim C7 counterexample: when the subject already exists in G, the
upsert overwrites in place and the removal deletes the record outright,
so the round trip loses the original record instead of restoring G. -/
theorem upsert_remove_roundtrip_cex :
    removeGrades (upsertGrades [⟨"Math", 80⟩] "math" 90).1 "math"
      = some (⟨"Math", 90⟩, []) ∧
    Multiset.ofList ([] : List Grade) ≠ Multiset.ofList [⟨"Math", 80⟩] := by
  refine ⟨by decide, ?_⟩
  intro h
  simpa using congrArg Multiset.card h

/-- Claim C7 witness: upserting the fresh subject "Chem " (trimmed to
"Chem") into a list holding only "Math" and removing it again restores
the original list exactly. -/
theorem upsert_remove_roundtrip_witness :
    removeGrades (upsertGrades [⟨"Math", 80⟩] (jsTrim "Chem ") 95).1 (jsTrim "Chem ")
      = some (⟨jsTrim "Chem ", 95⟩, [⟨"Math", 80⟩]) :=
  upsert_remove_roundtrip [⟨"Math", 80⟩] "Chem " 95 (by decide) (by decide) (by decide)

/-- Inserting into the descending sort never yields the empty list. -/
theorem insertDesc_ne_nil (g : Grade) (l : List Grade) : insertDesc g l ≠ [] := by
  cases l with
  | nil => simp [insertDesc]
  | cons h t =>
    simp only [insertDesc]
    split <;> simp

/-- `insertDesc` is a permutation of consing. -/
theorem perm_insertDesc (g : Grade) (l : List Grade) : (insertDesc g l).Perm (g :: l) := by
  induction l with
  | nil => exact List.Perm.refl _
  | cons h t ih =>
    simp only [insertDesc]
    split
    · exact List.Perm.refl _
    · exact (List.Perm.cons h ih).trans (List.Perm.swap g h t)

/-- The descending sort permutes its input. -/
theorem perm_sortByScoreDesc (l : List Grade) : (sortByScoreDesc l).Perm l := by
  induction l with
  | nil => exact List.Perm.refl _
  | cons g gs ih =>
    exact (perm_insertDesc g (sortByScoreDesc gs)).trans (List.Perm.cons g ih)

/-- Where `insertDesc` puts the new element last: exactly when every
existing element scores strictly above it. -/
theorem getLast?_insertDesc (g : Grade) (l : List Grade) :
    (insertDesc g l).getLast? =
      if l.all (fun e => decide (g.score < e.score)) then some g else l.getLast? := by
  induction l with
  | nil => simp [insertDesc]
  | cons h t ih =>
    simp only [insertDesc]
    by_cases hc : h.score ≤ g.score
    · rw [if_pos hc, List.getLast?_cons_cons,
        if_neg (by simp [List.all_cons, not_lt.mpr hc])]
    · rw [if_neg hc]
      have hlt : g.score < h.score := not_le.mp hc
      have hLHS : (h :: insertDesc g t).getLast? = (insertDesc g t).getLast? := by
        cases ht : insertDesc g t with
        | nil => exact absurd ht (insertDesc_ne_nil g t)
        | cons a as => rw [List.getLast?_cons_cons]
      rw [hLHS, ih]
      have hall : (h :: t).all (fun e => decide (g.score < e.score))
          = t.all (fun e => decide (g.score < e.score)) := by
        simp [List.all_cons, hlt]
      rw [hall]
      by_cases hat : t.all (fun e => decide (g.score < e.score))
      · rw [if_pos hat, if_pos hat]
      · rw [if_neg hat, if_neg hat]
        cases t with
        | nil => simp at hat
        | cons b bs => rw [List.getLast?_cons_cons]

/-- Claim C8 amended: for every grade list the academic summary's
`highestGrade` is the first record (in insertion order) attaining the
maximal score, while `lowestGrade` is the last record attaining the
minimal score — the tie-break for the lowest record selects the last
occurrence, not the first — and both are `null` exactly for the empty
list. -/
theorem summary_extremes (l : List Grade) :
    (∀ g, highestGrade l = some g →
      (∀ h ∈ l, h.score ≤ g.score) ∧
      ∃ l1 l2, l = l1 ++ g :: l2 ∧ ∀ h ∈ l1, h.score < g.score) ∧
    (∀ g, lowestGrade l = some g →
      (∀ h ∈ l, g.score ≤ h.score) ∧
      ∃ l1 l2, l = l1 ++ g :: l2 ∧ ∀ h ∈ l2, g.score < h.score) ∧
    (highestGrade l = none ↔ l = []) ∧
    (lowestGrade l = none ↔ l = []) := by
  induction l with
  | nil =>
    refine ⟨?_, ?_, by simp [highestGrade, sortByScoreDesc], by simp [lowestGrade, sortByScoreDesc]⟩
    · intro g hg
      simp [highestGrade, sortByScoreDesc] at hg
    · intro g hg
      simp [lowestGrade, sortByScoreDesc] at hg
  | cons x xs ih =>
    obtain ⟨ihH, ihL, ihHn, ihLn⟩ := ih
    have hsort : sortByScoreDesc (x :: xs) = insertDesc x (sortByScoreDesc xs) := rfl
    have hnn : insertDesc x (sortByScoreDesc xs) ≠ [] := insertDesc_ne_nil _ _
    refine ⟨?_, ?_, ?_, ?_⟩
    · intro g hg
      rw [highestGrade, hsort] at hg
      cases hs : sortByScoreDesc xs with
      | nil =>
        have hxs : xs = [] := by
          have hp := perm_sortByScoreDesc xs
          rw [hs] at hp
          exact (hp.symm).eq_nil
        subst hxs
        rw [hs] at hg
        simp [insertDesc] at hg
        subst hg
        exact ⟨by simp, [], [], rfl, by simp⟩
      | cons h t =>
        have hih := ihH h (by rw [highestGrade, hs]; rfl)
        obtain ⟨hbound, p, q, hdecomp, hprev⟩ := hih
        rw [hs] at hg
        simp only [insertDesc] at hg
        by_cases hc : h.score ≤ x.score
        · rw [if_pos hc] at hg
          simp at hg
          subst hg
          refine ⟨?_, [], xs, rfl, by simp⟩
          intro e he
          rcases List.mem_cons.mp he with rfl | hin
          · exact le_refl _
          · exact le_trans (hbound e hin) hc
        · rw [if_neg hc] at hg
          simp at hg
          subst hg
          have hxlt : x.score < h.score := not_le.mp hc
          refine ⟨?_, x :: p, q, by rw [hdecomp]; rfl, ?_⟩
          · intro e he
            rcases List.mem_cons.mp he with rfl | hin
            · exact le_of_lt hxlt
            · exact hbound e hin
          · intro e he
            rcases List.mem_cons.mp he with rfl | hin
            · exact hxlt
            · exact hprev e hin
    · intro g hg
      rw [lowestGrade, hsort, getLast?_insertDesc] at hg
      by_cases hall : (sortByScoreDesc xs).all (fun e => decide (x.score < e.score))
      · rw [if_pos hall] at hg
        simp at hg
        subst hg
        have hallxs : ∀ e ∈ xs, x.score < e.score := by
          intro e he
          have hmem : e ∈ sortByScoreDesc xs := (perm_sortByScoreDesc xs).mem_iff.mpr he
          exact of_decide_eq_true (List.all_eq_true.mp hall e hmem)
        refine ⟨?_, [], xs, rfl, hallxs⟩
        intro e he
        rcases List.mem_cons.mp he with rfl | hin
        · exact le_refl _
        · exact le_of_lt (hallxs e hin)
      · rw [if_neg hall] at hg
        have hih := ihL g (by rw [lowestGrade]; exact hg)
        obtain ⟨hbound, p, q, hdecomp, hsuf⟩ := hih
        have hex : ∃ e ∈ xs, e.score ≤ x.score := by
          by_contra hno
          push_neg at hno
          refine hall (List.all_eq_true.mpr ?_)
          intro e hmem
          have he : e ∈ xs := (perm_sortByScoreDesc xs).mem_iff.mp hmem
          exact decide_eq_true (hno e he)
        obtain ⟨e, he, hle⟩ := hex
        refine ⟨?_, x :: p, q, by rw [hdecomp]; rfl, hsuf⟩
        intro f hf
        rcases List.mem_cons.mp hf with rfl | hin
        · exact le_trans (hbound e he) hle
        · exact hbound f hin
    · rw [highestGrade, hsort]
      simp only [List.head?_eq_none_iff]
      exact iff_of_false hnn (by simp)
    · rw [lowestGrade, hsort]
      simp only [List.getLast?_eq_none_iff]
      exact iff_of_false hnn (by simp)

/-- Claim C8 counterexample: for the tied list [alg 50, bio 50] the first
record attaining the minimal score is alg 50, but the summary's
`lowestGrade` is bio 50 — the last occurrence, refuting the
first-occurrence tie-break for the lowest record. -/
theorem summary_extremes_cex :
    ([⟨"alg", 50⟩, ⟨"bio", 50⟩] : List Grade).find?
        (fun g => ([⟨"alg", 50⟩, ⟨"bio", 50⟩] : List Grade).all
          (fun h => decide (g.score ≤ h.score))) = some ⟨"alg", 50⟩ ∧
    lowestGrade [⟨"alg", 50⟩, ⟨"bio", 50⟩] = some ⟨"bio", 50⟩ ∧
    (⟨"alg", (50 : ℚ)⟩ : Grade) ≠ ⟨"bio", 50⟩ := by decide

/-- Claim C8 witness: on [a 50, b 70] the highest is b 70 (all scores
below it, with the strictly smaller a 50 before it) as the amended claim
computes. -/
theorem summary_extremes_witness :
    (∀ h ∈ ([⟨"a", 50⟩, ⟨"b", 70⟩] : List Grade), h.score ≤ (⟨"b", (70 : ℚ)⟩ : Grade).score) ∧
    ∃ l1 l2, ([⟨"a", 50⟩, ⟨"b", 70⟩] : List Grade) = l1 ++ ⟨"b", 70⟩ :: l2 ∧
      ∀ h ∈ l1, h.score < (⟨"b", (70 : ℚ)⟩ : Grade).score :=
  (summary_extremes [⟨"a", 50⟩, ⟨"b", 70⟩]).1 ⟨"b", 70⟩ (by decide)
